import Mathlib

/-!
Verification of the nori-profiles installer core against its specification.

File contents are modelled as lists of characters (`Str`).  Each definition
is a shallow embedding of the corresponding TypeScript function; effectful
calls (filesystem access, HTTP requests) are abstracted into explicit oracle
parameters and event traces.
-/

set_option maxRecDepth 16000

namespace Nori

/-- File contents and strings are modelled as lists of characters. -/
abbrev Str := List Char

/-! ## Managed-block editor (`src/installer/features/claudemd/loader.ts`)

`insertClaudeMd` / `removeClaudeMd` (and the identical AGENTS.md variant)
operate on the file content with two regexes over the sentinel lines
`# BEGIN NORI-AI MANAGED BLOCK` and `# END NORI-AI MANAGED BLOCK`:

* replace (when the content includes the BEGIN sentinel):
  `BEGIN\n[\s\S]*?\nEND\n?` -> `BEGIN\n{instructions}\nEND\n`, flag `g`;
* append (otherwise): content + `\nBEGIN\n{instructions}\nEND\n`;
* remove: `\n?BEGIN\n[\s\S]*?\nEND\n?` -> empty, flag `g`; afterwards, if the
  trimmed content is empty the file is deleted (modelled by `none`).

The scanner below implements exactly the leftmost-match / non-greedy-inner /
greedy-optional-newline semantics of those patterns.
-/

/-- `BEGIN_MARKER` of the managed block. -/
def beginMarker : Str := "# BEGIN NORI-AI MANAGED BLOCK".data

/-- `END_MARKER` of the managed block. -/
def endMarker : Str := "# END NORI-AI MANAGED BLOCK".data

/-- Greedy `\n?`: consume one leading newline when present. -/
def consumeOptNewline : Str → Str
  | '\n' :: rest => rest
  | s => s

/-- Non-greedy `[\s\S]*?\nEND\n?`: scan for the first occurrence of
`\n` + END sentinel, and return the remainder after it (with a trailing
newline consumed greedily).  `none` when no end sentinel follows. -/
def findEnd : Str → Option Str
  | [] => none
  | c :: rest =>
    if ('\n' :: endMarker) <+: (c :: rest) then
      some (consumeOptNewline ((c :: rest).drop ('\n' :: endMarker).length))
    else
      findEnd rest

/-- Match attempt of the removal regex `\n?BEGIN\n[\s\S]*?\nEND\n?` at the
head of `s`; the optional leading newline is tried greedily first, and since
the BEGIN sentinel does not start with a newline the non-consuming
alternative can only apply when `s` does not start with a newline.
Returns the remainder of the string after the matched region. -/
def matchRemoveHere (s : Str) : Option Str :=
  if ('\n' :: (beginMarker ++ ['\n'])) <+: s then
    findEnd (s.drop (beginMarker.length + 2))
  else if (beginMarker ++ ['\n']) <+: s then
    findEnd (s.drop (beginMarker.length + 1))
  else none

/-- Global (`g`-flagged) replacement of the removal regex by the empty
string: scan left to right, deleting every match.  The fuel argument only
serves the termination checker; `s.length` steps always suffice because
every loop iteration consumes at least one character. -/
def removeBlocksGo : Nat → Str → Str
  | 0, s => s
  | fuel + 1, s =>
    match matchRemoveHere s with
    | some after => removeBlocksGo fuel after
    | none =>
      match s with
      | [] => []
      | c :: rest => c :: removeBlocksGo fuel rest

/-- `content.replace(/\n?BEGIN\n[\s\S]*?\nEND\n?/g, "")`. -/
def removeBlocks (s : Str) : Str := removeBlocksGo s.length s

/-- Match attempt of the replacement regex `BEGIN\n[\s\S]*?\nEND\n?` at the
head of `s`. -/
def matchReplaceHere (s : Str) : Option Str :=
  if (beginMarker ++ ['\n']) <+: s then
    findEnd (s.drop (beginMarker.length + 1))
  else none

/-- The replacement text `BEGIN\n{instructions}\nEND\n`. -/
def replacementBlock (instructions : Str) : Str :=
  beginMarker ++ '\n' :: instructions ++ '\n' :: endMarker ++ ['\n']

/-- Global replacement of `BEGIN\n[\s\S]*?\nEND\n?` by
`BEGIN\n{instructions}\nEND\n`. -/
def replaceBlocksGo (instructions : Str) : Nat → Str → Str
  | 0, s => s
  | fuel + 1, s =>
    match matchReplaceHere s with
    | some after => replacementBlock instructions ++ replaceBlocksGo instructions fuel after
    | none =>
      match s with
      | [] => []
      | c :: rest => c :: replaceBlocksGo instructions fuel rest

/-- `content.replace(/BEGIN\n[\s\S]*?\nEND\n?/g, BEGIN\n{instructions}\nEND\n)`. -/
def replaceBlocks (instructions s : Str) : Str := replaceBlocksGo instructions s.length s

/-- The section appended by the NO_BLOCK branch:
`\nBEGIN\n{instructions}\nEND\n`. -/
def managedSection (instructions : Str) : Str :=
  '\n' :: beginMarker ++ '\n' :: instructions ++ '\n' :: endMarker ++ ['\n']

/-- Content-level core of `insertClaudeMd` (and `insertAgentsMd`): replace the
managed block when the BEGIN sentinel is present, else append a new block. -/
def insertClaudeMdContent (instructions content : Str) : Str :=
  if beginMarker <:+: content then replaceBlocks instructions content
  else content ++ managedSection instructions

/-- JavaScript whitespace as recognised by `String.prototype.trim`. -/
def isJsWhitespace (c : Char) : Bool :=
  c = ' ' || c = '\t' || c = '\n' || c = '\r' ||
  c = '\x0b' || c = '\x0c' || c.val = 0xa0 || c.val = 0xfeff ||
  c.val = 0x1680 || (0x2000 ≤ c.val && c.val ≤ 0x200a) ||
  c.val = 0x2028 || c.val = 0x2029 || c.val = 0x202f ||
  c.val = 0x205f || c.val = 0x3000

/-- Content-level core of `removeClaudeMd` (and `removeAgentsMd`): when no
BEGIN sentinel is present the file is left untouched; otherwise the managed
block is removed, and if the remaining trimmed content is empty the file is
deleted (`none`) instead of an empty file being written. -/
def removeClaudeMdContent (content : Str) : Option Str :=
  if beginMarker <:+: content then
    let updated := removeBlocks content
    if updated.all isJsWhitespace then none else some updated
  else some content

/-! ## Registry data model (`src/api/profileRegistry.ts`, `src/installer/config.ts`) -/

/-- `PROFILE_REGISTRY_URL`. -/
def publicRegistryUrl : Str := "https://registrar.tilework.tech".data

/-- One entry of `registryAuths` in the Nori config. -/
structure RegistryAuth where
  username : Str
  password : Str
  registryUrl : Str
deriving DecidableEq

/-- The slice of the runtime `Config` used by the registry-download and
registry-search paths. -/
structure Config where
  registryAuths : Option (List RegistryAuth) := none
deriving DecidableEq

/-- Packument-like profile metadata; `distTags` models the `"dist-tags"`
record, queried at the key `"latest"`. -/
structure ProfileMetadata where
  name : Str
  description : Option Str := none
  distTags : List (Str × Str) := []
deriving DecidableEq

/-- A `RegistrySearchResult` of the download path
(`src/installer/profiles.ts`). -/
structure RegistrySearchResult where
  registryUrl : Str
  profileMetadata : ProfileMetadata
  authToken : Option Str := none
deriving DecidableEq

/-- Oracle for the two effectful calls made while resolving a profile name:
`profileRegistryApi.getProfileMetadata({profileName, registryUrl, authToken})`
(specialised to the profile name being searched) and
`getRegistryAuthToken({registryAuth})`.  A thrown error is `none`. -/
structure RegistryOracle where
  getProfileMetadata : Str → Option Str → Option ProfileMetadata
  getRegistryAuthToken : RegistryAuth → Option Str

/-- Observable events of a `registryDownloadMain` run: metadata queries,
the tarball download, and the filesystem effects on the target directory. -/
inductive FsEvent where
  | queryMetadata (registryUrl : Str) (authToken : Option Str)
  | downloadTarball (registryUrl : Str) (authToken : Option Str) (version : Option Str)
  | mkdirTarget
  | extractTarball
  | rmTarget
deriving DecidableEq

/-- Log levels of the CLI logger. -/
inductive LogLevel where
  | error
  | info
  | success
deriving DecidableEq

/-- The private-registry loop of the download path `searchAllRegistries`
(`src/installer/profiles.ts` lines 345-367): for each auth entry obtain a
token and query the metadata; any failure skips the entry.  Results and
query events accumulate in order. -/
def searchPrivateLoop (o : RegistryOracle) :
    List RegistryAuth → List RegistrySearchResult → List FsEvent →
    List RegistrySearchResult × List FsEvent
  | [], results, events => (results, events)
  | ra :: rest, results, events =>
    match o.getRegistryAuthToken ra with
    | none => searchPrivateLoop o rest results events
    | some tok =>
      match o.getProfileMetadata ra.registryUrl (some tok) with
      | none =>
        searchPrivateLoop o rest results
          (events ++ [FsEvent.queryMetadata ra.registryUrl (some tok)])
      | some md =>
        searchPrivateLoop o rest
          (results ++ [⟨ra.registryUrl, md, some tok⟩])
          (events ++ [FsEvent.queryMetadata ra.registryUrl (some tok)])

/-- Download-path `searchAllRegistries`: query the public registry first
without auth (failure swallowed), then every `registryAuths` entry in config
order.  Note: this version performs no URL deduplication. -/
def searchAllRegistries (o : RegistryOracle) (config : Option Config) :
    List RegistrySearchResult × List FsEvent :=
  let results0 : List RegistrySearchResult :=
    match o.getProfileMetadata publicRegistryUrl none with
    | some md => [⟨publicRegistryUrl, md, none⟩]
    | none => []
  let events0 := [FsEvent.queryMetadata publicRegistryUrl none]
  match config with
  | some cfg =>
    match cfg.registryAuths with
    | some auths => searchPrivateLoop o auths results0 events0
    | none => (results0, events0)
  | none => (results0, events0)

/-- Modelled from the spec: `getRegistryAuth({config, registryUrl})` (its
source module is not under `src/`); it selects the configured registry-auth
entry for the given registry URL. -/
def getRegistryAuth (config : Option Config) (url : Str) : Option RegistryAuth :=
  match config with
  | none => none
  | some cfg => (cfg.registryAuths.getD []).find? (fun ra => ra.registryUrl == url)

/-- `searchSpecificRegistry` (`src/installer/profiles.ts` lines 381-429). -/
def searchSpecificRegistry (o : RegistryOracle) (config : Option Config) (url : Str) :
    Option RegistrySearchResult × List FsEvent :=
  if url = publicRegistryUrl then
    match o.getProfileMetadata publicRegistryUrl none with
    | some md =>
      (some ⟨publicRegistryUrl, md, none⟩, [FsEvent.queryMetadata publicRegistryUrl none])
    | none => (none, [FsEvent.queryMetadata publicRegistryUrl none])
  else
    match config with
    | none => (none, [])
    | some cfg =>
      match getRegistryAuth (some cfg) url with
      | none => (none, [])
      | some ra =>
        match o.getRegistryAuthToken ra with
        | none => (none, [])
        | some tok =>
          match o.getProfileMetadata url (some tok) with
          | some md => (some ⟨url, md, some tok⟩, [FsEvent.queryMetadata url (some tok)])
          | none => (none, [FsEvent.queryMetadata url (some tok)])

/-- `Array.prototype.join(sep)`. -/
def joinSep (sep : Str) : List Str → Str
  | [] => []
  | [x] => x
  | x :: xs => x ++ sep ++ joinSep sep xs

/-- `formatMultipleProfilesError` (`src/installer/profiles.ts` lines 439-462). -/
def formatMultipleProfilesError (profileName : Str) (results : List RegistrySearchResult) :
    Str :=
  joinSep "\n".data
    (["Multiple profiles with the same name found.\n".data]
      ++ (results.flatMap fun r =>
           [r.registryUrl,
            "  -> ".data ++ profileName ++ "@".data
              ++ ((r.profileMetadata.distTags.lookup "latest".data).getD "unknown".data)
              ++ ": ".data ++ (r.profileMetadata.description.getD []) ++ "\n".data])
      ++ ["To download, please specify the registry with --registry:".data]
      ++ results.map fun r =>
           "nori-ai registry-download ".data ++ profileName ++ " --registry ".data
             ++ r.registryUrl)

/-- Environment of one `registryDownloadMain` run: the oracle for registry
queries, the result of `getInstallDirs`, the CLI arguments, the loaded
config, whether the target profile directory already exists, and the
outcomes of the tarball download and of the tar extraction. -/
structure DlEnv where
  oracle : RegistryOracle
  installations : List Str := []
  installDirArg : Option Str := none
  registryUrlArg : Option Str := none
  config : Option Config := none
  targetDirExists : Bool := false
  downloadResult : Except Str Unit := Except.ok ()
  extractResult : Except Str Unit := Except.ok ()

/-- Message printed when no installation is found. -/
def noInstallMsg : Str := "No Nori installation found.".data

/-- Follow-up info line directing the user to the install command. -/
def runInstallMsg : Str := "Run 'npx nori-ai install' to install Nori Profiles.".data

/-- `${index + 1}. ${dir}` numbering of the ambiguous-installations list. -/
def numberedFrom (i : Nat) : List Str → List Str
  | [] => []
  | d :: rest => ((toString (i + 1)).data ++ ". ".data ++ d) :: numberedFrom (i + 1) rest

/-- Message printed when several installations are found. -/
def multiInstallMsg (dirs : List Str) : Str :=
  "Found multiple Nori installations. Cannot determine which one to use.\n\nInstallations found:\n".data
    ++ joinSep "\n".data (numberedFrom 0 dirs)
    ++ "\n\nPlease use --install-dir to specify the target installation.".data

/-- Message printed when the target profile directory already exists. -/
def alreadyExistsMsg (profileName targetDir : Str) : Str :=
  "Profile \"".data ++ profileName ++ "\" already exists at:\n".data ++ targetDir
    ++ "\n\nTo reinstall, first remove the existing profile directory.".data

/-- Message printed when the explicit registry has no configured auth. -/
def noAuthMsg (url : Str) : Str :=
  "No authentication configured for registry: ".data ++ url
    ++ "\n\nAdd registry credentials to your .nori-config.json file.".data

/-- Message printed when the profile is found in no registry. -/
def notFoundMsg (profileName : Str) : Str :=
  "Profile \"".data ++ profileName ++ "\" not found in any registry.".data

/-- Info line printed before the download starts. -/
def downloadingMsg (profileName : Str) : Str :=
  "Downloading profile \"".data ++ profileName ++ "\"...".data

/-- Error line of the outer catch of the download step. -/
def downloadFailedMsg (profileName err : Str) : Str :=
  "Failed to download profile \"".data ++ profileName ++ "\": ".data ++ err

/-- Success line after download and extraction. -/
def downloadedMsg (profileName : Str) (version : Option Str) : Str :=
  "Downloaded and installed profile \"".data ++ profileName ++ "\"".data
    ++ (match version with
        | some v => "@".data ++ v
        | none => " (latest)".data)

/-- Info line naming the installed location. -/
def installedToMsg (targetDir : Str) : Str := "Installed to: ".data ++ targetDir

/-- Info hint naming the switch-profile follow-up command. -/
def switchHintMsg (profileName : Str) : Str :=
  "You can now use this profile with 'nori-ai switch-profile ".data ++ profileName
    ++ "'.".data

/-- Dispatch on the search results and download step of `registryDownloadMain`
(`src/installer/profiles.ts` lines 560-618). -/
def finishDownload (profileName : Str) (version : Option Str) (env : DlEnv)
    (targetDir : Str) (searchResults : List RegistrySearchResult)
    (events : List FsEvent) : List (LogLevel × Str) × List FsEvent :=
  match searchResults with
  | [] => ([(LogLevel.error, notFoundMsg profileName)], events)
  | [selected] =>
    let events1 :=
      events ++ [FsEvent.downloadTarball selected.registryUrl selected.authToken version]
    match env.downloadResult with
    | Except.error e =>
      ([(LogLevel.info, downloadingMsg profileName),
        (LogLevel.error, downloadFailedMsg profileName e)], events1)
    | Except.ok _ =>
      let events2 := events1 ++ [FsEvent.mkdirTarget]
      match env.extractResult with
      | Except.error e =>
        ([(LogLevel.info, downloadingMsg profileName),
          (LogLevel.error, downloadFailedMsg profileName e)],
         events2 ++ [FsEvent.extractTarball, FsEvent.rmTarget])
      | Except.ok _ =>
        ([(LogLevel.info, downloadingMsg profileName),
          (LogLevel.success, downloadedMsg profileName version),
          (LogLevel.info, installedToMsg targetDir),
          (LogLevel.info, switchHintMsg profileName)],
         events2 ++ [FsEvent.extractTarball])
  | results => ([(LogLevel.error, formatMultipleProfilesError profileName results)], events)

/-- The part of `registryDownloadMain` after the install directory has been
resolved: existing-profile early return, config load, search (explicit
registry or all registries), then `finishDownload`. -/
def registryDownloadWithDir (profileName : Str) (version : Option Str) (env : DlEnv)
    (targetInstallDir : Str) : List (LogLevel × Str) × List FsEvent :=
  let targetDir := targetInstallDir ++ "/.claude/profiles/".data ++ profileName
  if env.targetDirExists then
    ([(LogLevel.error, alreadyExistsMsg profileName targetDir)], [])
  else
    match env.registryUrlArg with
    | some url =>
      if url ≠ publicRegistryUrl ∧ getRegistryAuth env.config url = none then
        ([(LogLevel.error, noAuthMsg url)], [])
      else
        let r := searchSpecificRegistry env.oracle env.config url
        finishDownload profileName version env targetDir r.1.toList r.2
    | none =>
      let se := searchAllRegistries env.oracle env.config
      finishDownload profileName version env targetDir se.1 se.2

/-- `registryDownloadMain` (`src/installer/profiles.ts` lines 472-619),
modelled from the already-parsed profile name and version; returns the log
lines and the event trace of the run. -/
def registryDownloadMain (profileName : Str) (version : Option Str) (env : DlEnv) :
    List (LogLevel × Str) × List FsEvent :=
  match env.installDirArg with
  | some d => registryDownloadWithDir profileName version env d
  | none =>
    match env.installations with
    | [] => ([(LogLevel.error, noInstallMsg), (LogLevel.info, runInstallMsg)], [])
    | [d] => registryDownloadWithDir profileName version env d
    | dirs => ([(LogLevel.error, multiInstallMsg dirs)], [])

/-! ## Registry-search command (`registry-search`, with URL deduplication) -/

/-- `normalizeUrl({baseUrl})` (`src/utils/url.ts`): strip the trailing run of
slashes (`baseUrl.replace(/\/+$/, "")`). -/
def normalizeUrl (u : Str) : Str := (u.reverse.dropWhile (fun c => c == '/')).reverse

/-- A search hit returned by `GET /profiles/search`. -/
structure Profile where
  name : Str
  description : Option Str := none
deriving DecidableEq

/-- Per-registry result of the `registry-search` command. -/
structure QuerySearchResult where
  registryUrl : Str
  profiles : List Profile
  error : Option Str := none
deriving DecidableEq

/-- Oracle for the effectful calls of the `registry-search` command:
`searchProfilesOnRegistry` (specialised to the query string) and
`getRegistryAuthToken`; a thrown error carries its message. -/
structure QueryOracle where
  searchOnRegistry : Str → Option Str → Except Str (List Profile)
  getRegistryAuthToken : RegistryAuth → Except Str Str

/-- Private-registry loop of the search command's `searchAllRegistries`:
entries whose normalized URL was already searched are skipped; otherwise the
normalized URL is recorded and the registry is queried, a failure
contributing an error entry with no profiles. -/
def registrySearchPrivateLoop (o : QueryOracle) :
    List RegistryAuth → List Str → List QuerySearchResult → List QuerySearchResult
  | [], _, results => results
  | ra :: rest, searched, results =>
    let nurl := normalizeUrl ra.registryUrl
    if nurl ∈ searched then
      registrySearchPrivateLoop o rest searched results
    else
      match o.getRegistryAuthToken ra with
      | Except.error e =>
        registrySearchPrivateLoop o rest (nurl :: searched)
          (results ++ [⟨ra.registryUrl, [], some e⟩])
      | Except.ok tok =>
        match o.searchOnRegistry ra.registryUrl (some tok) with
        | Except.ok profiles =>
          registrySearchPrivateLoop o rest (nurl :: searched)
            (results ++ [⟨ra.registryUrl, profiles, none⟩])
        | Except.error e =>
          registrySearchPrivateLoop o rest (nurl :: searched)
            (results ++ [⟨ra.registryUrl, [], some e⟩])

/-- `searchAllRegistries` of the `registry-search` command: the public
registry is always searched first (its normalized URL recorded), then the
configured private registries, deduplicated by normalized URL. -/
def registrySearchAllRegistries (o : QueryOracle) (config : Option Config) :
    List QuerySearchResult :=
  let results0 : List QuerySearchResult :=
    match o.searchOnRegistry publicRegistryUrl none with
    | Except.ok profiles => [⟨publicRegistryUrl, profiles, none⟩]
    | Except.error e => [⟨publicRegistryUrl, [], some e⟩]
  let searched0 := [normalizeUrl publicRegistryUrl]
  match config with
  | some cfg =>
    match cfg.registryAuths with
    | some auths => registrySearchPrivateLoop o auths searched0 results0
    | none => results0
  | none => results0

/-! ## Disk config store and `switchProfile`
(`src/installer/config.ts`, `src/installer/profiles.ts` lines 60-93) -/

/-- Authentication triple of the disk config. -/
structure Auth where
  username : Str
  password : Str
  organizationUrl : Str
deriving DecidableEq

/-- The JSON document persisted at the config path, field by field.
`installDirs` distinguishes a missing key (`none`), an explicit `null`
(`some none`) and an array (`some (some dirs)`).  `registryAuths` models a
key that may sit in the file on disk but that this version of
`loadDiskConfig`/`saveDiskConfig` neither reads nor writes. -/
structure RawConfigFile where
  username : Option Str := none
  password : Option Str := none
  organizationUrl : Option Str := none
  profileBase : Option Str := none
  sendSessionTranscript : Option Str := none
  installDirs : Option (Option (List Str)) := none
  registryAuths : Option (List RegistryAuth) := none
deriving DecidableEq

/-- The parsed `DiskConfig`. -/
structure DiskConfig where
  auth : Option Auth := none
  profile : Option Str := none
  sendSessionTranscript : Option Str := none
  installDirs : Option (List Str) := none
deriving DecidableEq

/-- `loadDiskConfig` (`src/installer/config.ts` lines 69-150).  `normDir`
stands for the imported `normalizeInstallDir` (its module is not under
`src/`); `none` input models a missing or unparsable file.  Credentials are
kept only when all three are present and non-empty (JS truthiness);
`sendSessionTranscript` defaults to `enabled`; a missing `installDirs` key
migrates to `[~/.claude]`. -/
def loadDiskConfig (normDir : Str → Str) (file : Option RawConfigFile) :
    Option DiskConfig :=
  match file with
  | none => none
  | some f =>
    let auth : Option Auth :=
      match f.username, f.password, f.organizationUrl with
      | some u, some p, some o =>
        if u ≠ [] ∧ p ≠ [] ∧ o ≠ [] then some ⟨u, p, o⟩ else none
      | _, _, _ => none
    let profile : Option Str :=
      match f.profileBase with
      | some b => if b ≠ [] then some b else none
      | none => none
    let sst : Option Str :=
      match f.sendSessionTranscript with
      | some s =>
        if s = "enabled".data ∨ s = "disabled".data then some s
        else some "enabled".data
      | none => some "enabled".data
    let dirs : Option (List Str) :=
      match f.installDirs with
      | some (some arr) => some (arr.map normDir)
      | some none => none
      | none => some [normDir "~/.claude".data]
    some ⟨auth, profile, sst, dirs⟩

/-- Arguments of `saveDiskConfig`; `installDirs` again distinguishes
not-passed (`none`) from explicit `null` (`some none`). -/
structure SaveArgs where
  username : Option Str := none
  password : Option Str := none
  organizationUrl : Option Str := none
  profile : Option Str := none
  sendSessionTranscript : Option Str := none
  installDirs : Option (Option (List Str)) := none

/-- `saveDiskConfig` (`src/installer/config.ts` lines 162-214): a fresh
object is built from the arguments alone and written to disk; credentials go
in only when all three are non-null (the organization URL normalized), the
optional fields only when passed.  Keys the function does not know
(`registryAuths`) are never written. -/
def saveDiskConfig (normDir : Str → Str) (a : SaveArgs) : RawConfigFile :=
  let hasAuth := a.username ≠ none ∧ a.password ≠ none ∧ a.organizationUrl ≠ none
  { username := if hasAuth then a.username else none
    password := if hasAuth then a.password else none
    organizationUrl := if hasAuth then a.organizationUrl.map normalizeUrl else none
    profileBase := a.profile
    sendSessionTranscript := a.sendSessionTranscript
    installDirs := a.installDirs.map (fun v => v.map (List.map normDir))
    registryAuths := none }

/-- `switchProfile` (`src/installer/profiles.ts` lines 60-93):
verify the profile exists (modelled by `profileExists`), load the current
disk config, then save credentials (via `|| null`) and the new profile
selection.  `sendSessionTranscript` and `installDirs` are not passed on. -/
def switchProfile (normDir : Str → Str) (profileExists : Bool)
    (file : Option RawConfigFile) (profileName : Str) : Except Str RawConfigFile :=
  if !profileExists then
    Except.error ("Profile \"".data ++ profileName ++ "\" not found".data)
  else
    let currentConfig := loadDiskConfig normDir file
    let auth := currentConfig.bind (fun c => c.auth)
    Except.ok (saveDiskConfig normDir
      { username := auth.map (fun x => x.username)
        password := auth.map (fun x => x.password)
        organizationUrl := auth.map (fun x => x.organizationUrl)
        profile := some profileName })

/-! ## Profile listings (`listProfiles`, `getAvailableProfiles`) -/

/-- One entry of a profiles directory as observed by the listing code:
its name, whether it is a directory, whether `<name>/CLAUDE.md` is
accessible, and the result of reading `<name>/profile.json`
(`none` = unreadable, `some d` = parsed with optional `description`). -/
structure DirEntry where
  name : Str
  isDirectory : Bool
  hasClaudeMd : Bool
  profileJson : Option (Option Str) := none
deriving DecidableEq

/-- `listProfiles` (`src/installer/profiles.ts` lines 17-52): every
directory entry containing a `CLAUDE.md` is listed, with no filtering on the
name; a missing profiles directory is an error. -/
def listProfiles (profilesDirExists : Bool) (entries : List DirEntry) :
    Except Str (List Str) :=
  if profilesDirExists then
    Except.ok (entries.filterMap fun e =>
      if e.isDirectory && e.hasClaudeMd then some e.name else none)
  else
    Except.error "Failed to list profiles".data

/-- Built-in profile scan of `getAvailableProfiles`
(`src/cli/commands/install/install.ts` lines 112-136): non-directories and
entries whose name starts with `_` are skipped; for the rest `profile.json`
is read without a catch, so an unreadable one aborts the whole scan. -/
def getAvailableBuiltInProfiles : List DirEntry → Except Str (List (Str × Str))
  | [] => Except.ok []
  | e :: rest =>
    if !e.isDirectory || e.name.head? == some '_' then
      getAvailableBuiltInProfiles rest
    else
      match e.profileJson with
      | none => Except.error ("ENOENT: no such file profile.json".data)
      | some desc =>
        (getAvailableBuiltInProfiles rest).map
          (fun l => (e.name, desc.getD "No description available".data) :: l)

/-! ## Nested-install warning hook
(`src/installer/features/hooks/config/nested-install-warning.ts`) -/

/-- The `systemMessage` built when at least two installations are found. -/
def nestedWarningMessage (dirs : List Str) : Str :=
  "⚠️ **Nested Nori Installation Detected**\n\n".data
    ++ "Claude Code loads CLAUDE.md files from all parent directories. ".data
    ++ "Having multiple Nori installations can cause duplicate or conflicting configurations.\n\n".data
    ++ "**All Nori installations found:**\n".data
    ++ (dirs.map fun d => "- ".data ++ d ++ "\n".data).flatten
    ++ "\n**To remove an installation, run:**\n".data
    ++ (dirs.map fun d => "`cd ".data ++ d ++ " && npx nori-ai@latest uninstall`\n".data).flatten

/-- `main` of the nested-install warning hook, as a function of the
`getInstallDirs` result: fewer than two installations produce no output;
otherwise the warning message is emitted as a `systemMessage`.  The hook
never blocks the session and its process always exits 0 (its body is wrapped
in a catch-all and the entry point forces exit code 0). -/
def nestedInstallWarningMain (installations : List Str) : Option Str × Nat :=
  if installations.length < 2 then (none, 0)
  else (some (nestedWarningMessage installations), 0)

example : insertClaudeMdContent "body".data "user".data =
    ("user\n# BEGIN NORI-AI MANAGED BLOCK\nbody\n# END NORI-AI MANAGED BLOCK\n").data := by
  decide

example : removeClaudeMdContent
    ("user\n# BEGIN NORI-AI MANAGED BLOCK\nbody\n# END NORI-AI MANAGED BLOCK\n").data =
    some "user".data := by
  decide

example : removeClaudeMdContent
    ("\n# BEGIN NORI-AI MANAGED BLOCK\nbody\n# END NORI-AI MANAGED BLOCK\n").data = none := by
  decide

example : insertClaudeMdContent "new".data
    ("before\n# BEGIN NORI-AI MANAGED BLOCK\nold\n# END NORI-AI MANAGED BLOCK\nafter").data =
    ("before\n# BEGIN NORI-AI MANAGED BLOCK\nnew\n# END NORI-AI MANAGED BLOCK\nafter").data := by
  decide

/-! ## Helper lemmas -/

theorem infix_extend {α : Type} {l m : List α} (x y : List α) (h : l <:+: m) :
    l <:+: x ++ m ++ y := by
  obtain ⟨s, t, rfl⟩ := h
  exact ⟨x ++ s, t ++ y, by simp⟩

theorem joinSep_infix_of_mem {sep l : Str} {L : List Str} (h : l ∈ L) :
    l <:+: joinSep sep L := by
  induction L with
  | nil => cases h
  | cons x xs ih =>
    cases xs with
    | nil =>
      have hx : l = x := by simpa using h
      subst hx
      exact ⟨[], [], by simp [joinSep]⟩
    | cons y ys =>
      rcases List.mem_cons.mp h with rfl | h
      · exact ⟨[], sep ++ joinSep sep (y :: ys), by simp [joinSep]⟩
      · exact (ih h).trans ⟨x ++ sep, [], by simp [joinSep]⟩

theorem searchPrivateLoop_fst (o : RegistryOracle) (auths : List RegistryAuth)
    (res : List RegistrySearchResult) (ev : List FsEvent) :
    (searchPrivateLoop o auths res ev).1 =
      res ++ auths.filterMap (fun ra =>
        (o.getRegistryAuthToken ra).bind fun tok =>
          (o.getProfileMetadata ra.registryUrl (some tok)).map fun md =>
            ⟨ra.registryUrl, md, some tok⟩) := by
  induction auths generalizing res ev with
  | nil => simp [searchPrivateLoop]
  | cons ra rest ih =>
    cases htok : o.getRegistryAuthToken ra with
    | none => simp [searchPrivateLoop, htok, List.filterMap_cons, ih]
    | some tok =>
      cases hmd : o.getProfileMetadata ra.registryUrl (some tok) with
      | none => simp [searchPrivateLoop, htok, hmd, List.filterMap_cons, ih]
      | some md => simp [searchPrivateLoop, htok, hmd, List.filterMap_cons, ih]

theorem searchPrivateLoop_events (o : RegistryOracle) (auths : List RegistryAuth)
    (res : List RegistrySearchResult) (ev : List FsEvent)
    (h : ∀ e ∈ ev, ∃ u t, e = FsEvent.queryMetadata u t) :
    ∀ e ∈ (searchPrivateLoop o auths res ev).2, ∃ u t, e = FsEvent.queryMetadata u t := by
  induction auths generalizing res ev with
  | nil => simpa [searchPrivateLoop] using h
  | cons ra rest ih =>
    cases htok : o.getRegistryAuthToken ra with
    | none =>
      simp only [searchPrivateLoop, htok]
      exact ih res ev h
    | some tok =>
      cases hmd : o.getProfileMetadata ra.registryUrl (some tok) with
      | none =>
        simp only [searchPrivateLoop, htok, hmd]
        refine ih res _ ?_
        intro e he
        rcases List.mem_append.mp he with he | he
        · exact h e he
        · simp only [List.mem_singleton] at he
          exact ⟨_, _, he⟩
      | some md =>
        simp only [searchPrivateLoop, htok, hmd]
        refine ih _ _ ?_
        intro e he
        rcases List.mem_append.mp he with he | he
        · exact h e he
        · simp only [List.mem_singleton] at he
          exact ⟨_, _, he⟩

theorem searchAllRegistries_events (o : RegistryOracle) (config : Option Config) :
    ∀ e ∈ (searchAllRegistries o config).2, ∃ u t, e = FsEvent.queryMetadata u t := by
  have base : ∀ e ∈ [FsEvent.queryMetadata publicRegistryUrl none],
      ∃ u t, e = FsEvent.queryMetadata u t := by
    intro e he
    simp only [List.mem_singleton] at he
    exact ⟨_, _, he⟩
  cases config with
  | none => simp [searchAllRegistries]
  | some cfg =>
    cases hra : cfg.registryAuths with
    | none => simp [searchAllRegistries, hra]
    | some auths =>
      simp only [searchAllRegistries, hra]
      exact searchPrivateLoop_events o auths _ _ base

/-! ## Claim theorems -/

/-- Claim C3: the download-path `searchAllRegistries` aggregate equals the
public registry's contribution (empty on failure) followed by the results of
exactly those configured private registries whose token and metadata queries
both succeeded; any per-registry failure contributes zero results and never
aborts the search of the others. -/
theorem searchAllRegistries_union_of_successes (o : RegistryOracle)
    (config : Option Config) :
    (searchAllRegistries o config).1 =
      (match o.getProfileMetadata publicRegistryUrl none with
        | some md => [⟨publicRegistryUrl, md, none⟩]
        | none => [])
      ++ ((config.bind fun c => c.registryAuths).getD []).filterMap (fun ra =>
            (o.getRegistryAuthToken ra).bind fun tok =>
              (o.getProfileMetadata ra.registryUrl (some tok)).map fun md =>
                ⟨ra.registryUrl, md, some tok⟩) := by
  cases config with
  | none => simp [searchAllRegistries]
  | some cfg =>
    cases hra : cfg.registryAuths with
    | none => simp [searchAllRegistries, hra]
    | some auths =>
      simp [searchAllRegistries, hra, searchPrivateLoop_fst]

/-- Claim C10: when the target profile directory already exists,
`registryDownloadMain` reports the remove-the-existing-directory error and
returns with an empty event trace: no registry query, no download and no
filesystem write happens, whether the install directory was given explicitly
or resolved as the single found installation. -/
theorem registryDownload_existing_profile_early_return
    (profileName : Str) (version : Option Str) (env : DlEnv) (d : Str)
    (hex : env.targetDirExists = true)
    (hdir : env.installDirArg = some d ∨
      (env.installDirArg = none ∧ env.installations = [d])) :
    registryDownloadMain profileName version env =
      ([(LogLevel.error,
          alreadyExistsMsg profileName (d ++ "/.claude/profiles/".data ++ profileName))], [])
    ∧ "To reinstall, first remove the existing profile directory.".data <:+:
        alreadyExistsMsg profileName (d ++ "/.claude/profiles/".data ++ profileName) := by
  constructor
  · rcases hdir with hdir | ⟨hdir, hsingle⟩
    · simp [registryDownloadMain, hdir, registryDownloadWithDir, hex]
    · simp [registryDownloadMain, hdir, hsingle, registryDownloadWithDir, hex]
  · unfold alreadyExistsMsg
    have h : "To reinstall, first remove the existing profile directory.".data <:+:
        "\n\nTo reinstall, first remove the existing profile directory.".data := by decide
    have := infix_extend
      ("Profile \"".data ++ profileName ++ "\" already exists at:\n".data
        ++ (d ++ "/.claude/profiles/".data ++ profileName)) ([] : Str) h
    simpa using this

/-- Claim C9: in a download run, the target directory is created only after
the tarball download succeeded (a failed download leaves a trace without
`mkdirTarget`), and when tar extraction then fails the target directory is
removed recursively right after the failing extraction, before the
extraction error is reported; a successful extraction performs no removal. -/
theorem registryDownload_extraction_cleanup
    (profileName : Str) (version : Option Str) (env : DlEnv) (d : Str)
    (r : RegistrySearchResult)
    (hdir : env.installDirArg = some d)
    (hex : env.targetDirExists = false)
    (hreg : env.registryUrlArg = none)
    (hres : (searchAllRegistries env.oracle env.config).1 = [r]) :
    (∀ e, env.downloadResult = Except.error e →
      (registryDownloadMain profileName version env).2 =
        (searchAllRegistries env.oracle env.config).2
          ++ [FsEvent.downloadTarball r.registryUrl r.authToken version]
      ∧ FsEvent.mkdirTarget ∉ (registryDownloadMain profileName version env).2)
    ∧ (∀ e, env.downloadResult = Except.ok () → env.extractResult = Except.error e →
      (registryDownloadMain profileName version env).2 =
        (searchAllRegistries env.oracle env.config).2
          ++ [FsEvent.downloadTarball r.registryUrl r.authToken version,
              FsEvent.mkdirTarget, FsEvent.extractTarball, FsEvent.rmTarget]
      ∧ (registryDownloadMain profileName version env).1 =
          [(LogLevel.info, downloadingMsg profileName),
           (LogLevel.error, downloadFailedMsg profileName e)])
    ∧ (env.downloadResult = Except.ok () → env.extractResult = Except.ok () →
      (registryDownloadMain profileName version env).2 =
        (searchAllRegistries env.oracle env.config).2
          ++ [FsEvent.downloadTarball r.registryUrl r.authToken version,
              FsEvent.mkdirTarget, FsEvent.extractTarball]) := by
  refine ⟨?_, ?_, ?_⟩
  · intro e hdl
    constructor
    · simp [registryDownloadMain, hdir, registryDownloadWithDir, hex, hreg,
        finishDownload, hres, hdl]
    · simp only [registryDownloadMain, hdir, registryDownloadWithDir, hex, hreg,
        finishDownload, hres, hdl]
      intro hmem
      rcases List.mem_append.mp hmem with hmem | hmem
      · rcases searchAllRegistries_events env.oracle env.config _ hmem with ⟨u, t, ht⟩
        cases ht
      · simp at hmem
  · intro e hdl hext
    constructor
    · simp [registryDownloadMain, hdir, registryDownloadWithDir, hex, hreg,
        finishDownload, hres, hdl, hext]
    · simp [registryDownloadMain, hdir, registryDownloadWithDir, hex, hreg,
        finishDownload, hres, hdl, hext]
  · intro hdl hext
    simp [registryDownloadMain, hdir, registryDownloadWithDir, hex, hreg,
      finishDownload, hres, hdl, hext]

/-- Claim C1: with no explicit registry argument, `registryDownloadMain`
dispatches on the number of registry search results: zero results produce
the not-found error naming the profile; exactly one result proceeds to the
download step using that result's registry URL and auth token; more than one
result produces the ambiguity error, whose message lists for every candidate
its registry URL, a line with the profile's latest version and description,
and the re-issue command with `--registry` for that registry. -/
theorem registryDownload_search_dispatch
    (profileName : Str) (version : Option Str) (env : DlEnv) (d : Str)
    (hdir : env.installDirArg = some d)
    (hex : env.targetDirExists = false)
    (hreg : env.registryUrlArg = none) :
    ((searchAllRegistries env.oracle env.config).1 = [] →
      (registryDownloadMain profileName version env).1 =
        [(LogLevel.error, notFoundMsg profileName)]
      ∧ profileName <:+: notFoundMsg profileName
      ∧ (registryDownloadMain profileName version env).2 =
          (searchAllRegistries env.oracle env.config).2)
    ∧ (∀ r, (searchAllRegistries env.oracle env.config).1 = [r] →
        (registryDownloadMain profileName version env).1.head? =
          some (LogLevel.info, downloadingMsg profileName)
        ∧ FsEvent.downloadTarball r.registryUrl r.authToken version ∈
            (registryDownloadMain profileName version env).2)
    ∧ (2 ≤ (searchAllRegistries env.oracle env.config).1.length →
        (registryDownloadMain profileName version env).1 =
          [(LogLevel.error,
            formatMultipleProfilesError profileName
              (searchAllRegistries env.oracle env.config).1)]
        ∧ ∀ r ∈ (searchAllRegistries env.oracle env.config).1,
            r.registryUrl <:+:
              formatMultipleProfilesError profileName
                (searchAllRegistries env.oracle env.config).1
            ∧ ("  -> ".data ++ profileName ++ "@".data
                ++ ((r.profileMetadata.distTags.lookup "latest".data).getD "unknown".data)
                ++ ": ".data ++ (r.profileMetadata.description.getD []) ++ "\n".data) <:+:
              formatMultipleProfilesError profileName
                (searchAllRegistries env.oracle env.config).1
            ∧ ("nori-ai registry-download ".data ++ profileName ++ " --registry ".data
                ++ r.registryUrl) <:+:
              formatMultipleProfilesError profileName
                (searchAllRegistries env.oracle env.config).1) := by
  refine ⟨?_, ?_, ?_⟩
  · intro hres
    refine ⟨?_, ⟨"Profile \"".data, "\" not found in any registry.".data, rfl⟩, ?_⟩
    · simp [registryDownloadMain, hdir, registryDownloadWithDir, hex, hreg,
        finishDownload, hres]
    · simp [registryDownloadMain, hdir, registryDownloadWithDir, hex, hreg,
        finishDownload, hres]
  · intro r hres
    cases hdl : env.downloadResult with
    | error e =>
      constructor
      · simp [registryDownloadMain, hdir, registryDownloadWithDir, hex, hreg,
          finishDownload, hres, hdl]
      · simp [registryDownloadMain, hdir, registryDownloadWithDir, hex, hreg,
          finishDownload, hres, hdl]
    | ok u =>
      cases u
      cases hext : env.extractResult with
      | error e =>
        constructor
        · simp [registryDownloadMain, hdir, registryDownloadWithDir, hex, hreg,
            finishDownload, hres, hdl, hext]
        · simp [registryDownloadMain, hdir, registryDownloadWithDir, hex, hreg,
            finishDownload, hres, hdl, hext]
      | ok v =>
        cases v
        constructor
        · simp [registryDownloadMain, hdir, registryDownloadWithDir, hex, hreg,
            finishDownload, hres, hdl, hext]
        · simp [registryDownloadMain, hdir, registryDownloadWithDir, hex, hreg,
            finishDownload, hres, hdl, hext]
  · intro hlen
    have hform : (registryDownloadMain profileName version env).1 =
        [(LogLevel.error,
          formatMultipleProfilesError profileName
            (searchAllRegistries env.oracle env.config).1)] := by
      rcases hsr : (searchAllRegistries env.oracle env.config).1 with _ | ⟨a, _ | ⟨b, t⟩⟩
      · rw [hsr] at hlen; simp at hlen
      · rw [hsr] at hlen; simp at hlen
      · simp [registryDownloadMain, hdir, registryDownloadWithDir, hex, hreg,
          finishDownload, hsr]
    refine ⟨hform, ?_⟩
    intro r hr
    refine ⟨?_, ?_, ?_⟩
    · have hline : r.registryUrl ∈
          (["Multiple profiles with the same name found.\n".data]
            ++ ((searchAllRegistries env.oracle env.config).1.flatMap fun r =>
                 [r.registryUrl,
                  "  -> ".data ++ profileName ++ "@".data
                    ++ ((r.profileMetadata.distTags.lookup "latest".data).getD "unknown".data)
                    ++ ": ".data ++ (r.profileMetadata.description.getD []) ++ "\n".data])
            ++ ["To download, please specify the registry with --registry:".data]
            ++ (searchAllRegistries env.oracle env.config).1.map fun r =>
                 "nori-ai registry-download ".data ++ profileName ++ " --registry ".data
                   ++ r.registryUrl) := by
        refine List.mem_append.mpr (Or.inl (List.mem_append.mpr (Or.inl ?_)))
        refine List.mem_append.mpr (Or.inr ?_)
        exact List.mem_flatMap.mpr ⟨r, hr, by simp⟩
      exact joinSep_infix_of_mem hline
    · have hline : ("  -> ".data ++ profileName ++ "@".data
          ++ ((r.profileMetadata.distTags.lookup "latest".data).getD "unknown".data)
          ++ ": ".data ++ (r.profileMetadata.description.getD []) ++ "\n".data) ∈
          (["Multiple profiles with the same name found.\n".data]
            ++ ((searchAllRegistries env.oracle env.config).1.flatMap fun r =>
                 [r.registryUrl,
                  "  -> ".data ++ profileName ++ "@".data
                    ++ ((r.profileMetadata.distTags.lookup "latest".data).getD "unknown".data)
                    ++ ": ".data ++ (r.profileMetadata.description.getD []) ++ "\n".data])
            ++ ["To download, please specify the registry with --registry:".data]
            ++ (searchAllRegistries env.oracle env.config).1.map fun r =>
                 "nori-ai registry-download ".data ++ profileName ++ " --registry ".data
                   ++ r.registryUrl) := by
        refine List.mem_append.mpr (Or.inl (List.mem_append.mpr (Or.inl ?_)))
        refine List.mem_append.mpr (Or.inr ?_)
        exact List.mem_flatMap.mpr ⟨r, hr, by simp⟩
      exact joinSep_infix_of_mem hline
    · have hline : ("nori-ai registry-download ".data ++ profileName ++ " --registry ".data
          ++ r.registryUrl) ∈
          (["Multiple profiles with the same name found.\n".data]
            ++ ((searchAllRegistries env.oracle env.config).1.flatMap fun r =>
                 [r.registryUrl,
                  "  -> ".data ++ profileName ++ "@".data
                    ++ ((r.profileMetadata.distTags.lookup "latest".data).getD "unknown".data)
                    ++ ": ".data ++ (r.profileMetadata.description.getD []) ++ "\n".data])
            ++ ["To download, please specify the registry with --registry:".data]
            ++ (searchAllRegistries env.oracle env.config).1.map fun r =>
                 "nori-ai registry-download ".data ++ profileName ++ " --registry ".data
                   ++ r.registryUrl) := by
        refine List.mem_append.mpr (Or.inr ?_)
        exact List.mem_map.mpr ⟨r, hr, rfl⟩
      exact joinSep_infix_of_mem hline

theorem numberedFrom_mem {d : Str} {dirs : List Str} (i : Nat) (h : d ∈ dirs) :
    ∃ j, ((toString (j + 1)).data ++ ". ".data ++ d) ∈ numberedFrom i dirs := by
  induction dirs generalizing i with
  | nil => cases h
  | cons x xs ih =>
    rcases List.mem_cons.mp h with rfl | h
    · exact ⟨i, List.mem_cons_self _ _⟩
    · obtain ⟨j, hj⟩ := ih (i + 1) h
      exact ⟨j, List.mem_cons_of_mem _ hj⟩

/-- Claim C8: callers of `getInstallDirs` dispatch on the number of found
installations.  `registryDownloadMain`: zero installations produce the
no-installation error plus the info line naming the install command; exactly
one lets the run proceed against that directory; more than one blocks the
operation with an error listing every candidate directory and the
`--install-dir` remediation.  The session-start nested-install warning hook
instead reports all installations in a warning message but never blocks and
always exits 0. -/
theorem installDirs_count_dispatch
    (profileName : Str) (version : Option Str) (env : DlEnv) :
    (env.installDirArg = none → env.installations = [] →
      registryDownloadMain profileName version env =
        ([(LogLevel.error, noInstallMsg), (LogLevel.info, runInstallMsg)], [])
      ∧ "npx nori-ai install".data <:+: runInstallMsg)
    ∧ (∀ d, env.installDirArg = none → env.installations = [d] →
      registryDownloadMain profileName version env =
        registryDownloadWithDir profileName version env d)
    ∧ (env.installDirArg = none → 2 ≤ env.installations.length →
      registryDownloadMain profileName version env =
        ([(LogLevel.error, multiInstallMsg env.installations)], [])
      ∧ (∀ d ∈ env.installations, d <:+: multiInstallMsg env.installations)
      ∧ "--install-dir".data <:+: multiInstallMsg env.installations)
    ∧ (∀ dirs : List Str, (nestedInstallWarningMain dirs).2 = 0)
    ∧ (∀ dirs : List Str, dirs.length < 2 → (nestedInstallWarningMain dirs).1 = none)
    ∧ (∀ dirs : List Str, 2 ≤ dirs.length →
        (nestedInstallWarningMain dirs).1 = some (nestedWarningMessage dirs)
        ∧ ∀ d ∈ dirs, ("- ".data ++ d ++ "\n".data) <:+: nestedWarningMessage dirs) := by
  refine ⟨?_, ?_, ?_, ?_, ?_, ?_⟩
  · intro hdir hzero
    exact ⟨by simp [registryDownloadMain, hdir, hzero], by decide⟩
  · intro d hdir hone
    simp [registryDownloadMain, hdir, hone]
  · intro hdir hlen
    have heq : registryDownloadMain profileName version env =
        ([(LogLevel.error, multiInstallMsg env.installations)], []) := by
      rcases hsr : env.installations with _ | ⟨a, _ | ⟨b, t⟩⟩
      · rw [hsr] at hlen; simp at hlen
      · rw [hsr] at hlen; simp at hlen
      · simp [registryDownloadMain, hdir, hsr]
    refine ⟨heq, ?_, ?_⟩
    · intro d hd
      obtain ⟨j, hj⟩ := numberedFrom_mem 0 hd
      have hline : ((toString (j + 1)).data ++ ". ".data ++ d) <:+:
          joinSep "\n".data (numberedFrom 0 env.installations) :=
        joinSep_infix_of_mem hj
      have hsuffix : d <:+: ((toString (j + 1)).data ++ ". ".data ++ d) :=
        ⟨(toString (j + 1)).data ++ ". ".data, [], by simp⟩
      have hmid := infix_extend
        "Found multiple Nori installations. Cannot determine which one to use.\n\nInstallations found:\n".data
        "\n\nPlease use --install-dir to specify the target installation.".data
        (hsuffix.trans hline)
      simpa [multiInstallMsg] using hmid
    · have htail : "--install-dir".data <:+:
          "\n\nPlease use --install-dir to specify the target installation.".data := by
        decide
      have := infix_extend
        ("Found multiple Nori installations. Cannot determine which one to use.\n\nInstallations found:\n".data
          ++ joinSep "\n".data (numberedFrom 0 env.installations)) ([] : Str) htail
      simpa [multiInstallMsg] using this
  · intro dirs
    by_cases h : dirs.length < 2 <;> simp [nestedInstallWarningMain, h]
  · intro dirs h
    simp [nestedInstallWarningMain, h]
  · intro dirs hlen
    have hnot : ¬ dirs.length < 2 := by omega
    refine ⟨by simp [nestedInstallWarningMain, hnot], ?_⟩
    intro d hd
    have hline : ("- ".data ++ d ++ "\n".data) <:+:
        (dirs.map fun d => "- ".data ++ d ++ "\n".data).flatten :=
      List.infix_of_mem_flatten (List.mem_map_of_mem _ hd)
    have := infix_extend
      ("⚠️ **Nested Nori Installation Detected**\n\n".data
        ++ "Claude Code loads CLAUDE.md files from all parent directories. ".data
        ++ "Having multiple Nori installations can cause duplicate or conflicting configurations.\n\n".data
        ++ "**All Nori installations found:**\n".data)
      ("\n**To remove an installation, run:**\n".data
        ++ (dirs.map fun d => "`cd ".data ++ d ++ " && npx nori-ai@latest uninstall`\n".data).flatten)
      hline
    simpa [nestedWarningMessage] using this

/-- Metadata used by the concrete no-deduplication run. -/
def mdEx : ProfileMetadata :=
  { name := "team-profile".data
    description := some "A shared team profile".data
    distTags := [("latest".data, "1.0.0".data)] }

/-- Oracle for the concrete no-deduplication run: every metadata query and
token request succeeds. -/
def oracleEx : RegistryOracle :=
  { getProfileMetadata := fun _ _ => some mdEx
    getRegistryAuthToken := fun _ => some "tok".data }

/-- Config whose single registry-auth entry carries the public registry's
own URL. -/
def cfgEx : Config :=
  { registryAuths := some [⟨"user@example.com".data, "pw".data, publicRegistryUrl⟩] }

/-- Claim C2 counterexample: in the download path, a registry-auth entry
whose URL equals the already-queried public registry URL is not skipped —
the same registry is queried a second time and contributes a second search
result, so the claimed normalized-URL deduplication does not happen there. -/
theorem searchAllRegistries_no_dedupe_counterexample :
    ((searchAllRegistries oracleEx (some cfgEx)).1.map fun r => r.registryUrl) =
      [publicRegistryUrl, publicRegistryUrl]
    ∧ (searchAllRegistries oracleEx (some cfgEx)).2 =
      [FsEvent.queryMetadata publicRegistryUrl none,
       FsEvent.queryMetadata publicRegistryUrl (some "tok".data)]
    ∧ normalizeUrl publicRegistryUrl = normalizeUrl publicRegistryUrl := by
  exact ⟨rfl, rfl, rfl⟩

theorem registrySearchPrivateLoop_extends (o : QueryOracle) (auths : List RegistryAuth)
    (searched : List Str) (res : List QuerySearchResult) :
    ∃ t, registrySearchPrivateLoop o auths searched res = res ++ t := by
  induction auths generalizing searched res with
  | nil => exact ⟨[], by simp [registrySearchPrivateLoop]⟩
  | cons ra rest ih =>
    by_cases hmem : normalizeUrl ra.registryUrl ∈ searched
    · simpa [registrySearchPrivateLoop, hmem] using ih searched res
    · cases htok : o.getRegistryAuthToken ra with
      | error e =>
        obtain ⟨t, ht⟩ := ih (normalizeUrl ra.registryUrl :: searched)
          (res ++ [⟨ra.registryUrl, [], some e⟩])
        exact ⟨⟨ra.registryUrl, [], some e⟩ :: t, by
          simp [registrySearchPrivateLoop, hmem, htok, ht]⟩
      | ok tok =>
        cases hq : o.searchOnRegistry ra.registryUrl (some tok) with
        | ok profiles =>
          obtain ⟨t, ht⟩ := ih (normalizeUrl ra.registryUrl :: searched)
            (res ++ [⟨ra.registryUrl, profiles, none⟩])
          exact ⟨⟨ra.registryUrl, profiles, none⟩ :: t, by
            simp [registrySearchPrivateLoop, hmem, htok, hq, ht]⟩
        | error e =>
          obtain ⟨t, ht⟩ := ih (normalizeUrl ra.registryUrl :: searched)
            (res ++ [⟨ra.registryUrl, [], some e⟩])
          exact ⟨⟨ra.registryUrl, [], some e⟩ :: t, by
            simp [registrySearchPrivateLoop, hmem, htok, hq, ht]⟩

theorem registrySearchPrivateLoop_nodup (o : QueryOracle) (auths : List RegistryAuth)
    (searched : List Str) (res : List QuerySearchResult)
    (hsub : ∀ r ∈ res, normalizeUrl r.registryUrl ∈ searched)
    (hnd : (res.map fun r => normalizeUrl r.registryUrl).Nodup) :
    ((registrySearchPrivateLoop o auths searched res).map fun r =>
      normalizeUrl r.registryUrl).Nodup := by
  induction auths generalizing searched res with
  | nil => simpa [registrySearchPrivateLoop] using hnd
  | cons ra rest ih =>
    by_cases hmem : normalizeUrl ra.registryUrl ∈ searched
    · simp only [registrySearchPrivateLoop, hmem, if_pos]
      exact ih searched res hsub hnd
    · have hnotres : normalizeUrl ra.registryUrl ∉
          (res.map fun r => normalizeUrl r.registryUrl) := by
        intro hin
        obtain ⟨r, hr, hrr⟩ := List.mem_map.mp hin
        exact hmem (hrr ▸ hsub r hr)
      have hsub' : ∀ (u : Str),
          ∀ r ∈ res ++ [(⟨ra.registryUrl, [], some u⟩ : QuerySearchResult)],
            normalizeUrl r.registryUrl ∈ normalizeUrl ra.registryUrl :: searched := by
        intro u r hr
        rcases List.mem_append.mp hr with hr | hr
        · exact List.mem_cons_of_mem _ (hsub r hr)
        · simp only [List.mem_singleton] at hr
          subst hr
          exact List.mem_cons_self _ _
      have hsub'' : ∀ (ps : List Profile),
          ∀ r ∈ res ++ [(⟨ra.registryUrl, ps, none⟩ : QuerySearchResult)],
            normalizeUrl r.registryUrl ∈ normalizeUrl ra.registryUrl :: searched := by
        intro ps r hr
        rcases List.mem_append.mp hr with hr | hr
        · exact List.mem_cons_of_mem _ (hsub r hr)
        · simp only [List.mem_singleton] at hr
          subst hr
          exact List.mem_cons_self _ _
      have hnd' : ∀ (q : QuerySearchResult), q.registryUrl = ra.registryUrl →
          ((res ++ [q]).map fun r => normalizeUrl r.registryUrl).Nodup := by
        intro q hq
        rw [List.map_append]
        refine List.Nodup.append hnd (by simp) ?_
        intro a ha hb
        simp only [List.map_cons, List.map_nil, List.mem_singleton, hq] at hb
        subst hb
        exact hnotres ha
      cases htok : o.getRegistryAuthToken ra with
      | error e =>
        simp only [registrySearchPrivateLoop, hmem, if_neg, htok]
        exact ih _ _ (hsub' e) (hnd' _ rfl)
      | ok tok =>
        cases hq : o.searchOnRegistry ra.registryUrl (some tok) with
        | ok profiles =>
          simp only [registrySearchPrivateLoop, hmem, if_neg, htok, hq]
          exact ih _ _ (hsub'' profiles) (hnd' _ rfl)
        | error e =>
          simp only [registrySearchPrivateLoop, hmem, if_neg, htok, hq]
          exact ih _ _ (hsub' e) (hnd' _ rfl)

/-- Claim C2, amended: it is the `registry-search` command's
`searchAllRegistries` that deduplicates: the public registry is queried
first (the head of the results), and every registry-auth entry whose
normalized URL was already searched is skipped, so the normalized URLs of
the per-registry results are pairwise distinct — no registry contributes
results more than once there.  (The download path's `searchAllRegistries`
performs no deduplication; see the counterexample.) -/
theorem registrySearch_dedupes_by_normalized_url (o : QueryOracle)
    (config : Option Config) :
    ((registrySearchAllRegistries o config).map fun r =>
      normalizeUrl r.registryUrl).Nodup
    ∧ ((registrySearchAllRegistries o config).head?.map fun r => r.registryUrl) =
        some publicRegistryUrl := by
  constructor
  · cases hpub : o.searchOnRegistry publicRegistryUrl none with
    | ok profiles =>
      cases config with
      | none => simp [registrySearchAllRegistries, hpub]
      | some cfg =>
        cases hra : cfg.registryAuths with
        | none => simp [registrySearchAllRegistries, hpub, hra]
        | some auths =>
          simp only [registrySearchAllRegistries, hpub, hra]
          refine registrySearchPrivateLoop_nodup o auths _ _ ?_ (by simp)
          intro r hr
          simp only [List.mem_singleton] at hr
          subst hr
          exact List.mem_cons_self _ _
    | error e =>
      cases config with
      | none => simp [registrySearchAllRegistries, hpub]
      | some cfg =>
        cases hra : cfg.registryAuths with
        | none => simp [registrySearchAllRegistries, hpub, hra]
        | some auths =>
          simp only [registrySearchAllRegistries, hpub, hra]
          refine registrySearchPrivateLoop_nodup o auths _ _ ?_ (by simp)
          intro r hr
          simp only [List.mem_singleton] at hr
          subst hr
          exact List.mem_cons_self _ _
  · cases hpub : o.searchOnRegistry publicRegistryUrl none with
    | ok profiles =>
      cases config with
      | none => simp [registrySearchAllRegistries, hpub]
      | some cfg =>
        cases hra : cfg.registryAuths with
        | none => simp [registrySearchAllRegistries, hpub, hra]
        | some auths =>
          simp only [registrySearchAllRegistries, hpub, hra]
          obtain ⟨t, ht⟩ := registrySearchPrivateLoop_extends o auths
            [normalizeUrl publicRegistryUrl] [⟨publicRegistryUrl, profiles, none⟩]
          rw [ht]
          simp
    | error e =>
      cases config with
      | none => simp [registrySearchAllRegistries, hpub]
      | some cfg =>
        cases hra : cfg.registryAuths with
        | none => simp [registrySearchAllRegistries, hpub, hra]
        | some auths =>
          simp only [registrySearchAllRegistries, hpub, hra]
          obtain ⟨t, ht⟩ := registrySearchPrivateLoop_extends o auths
            [normalizeUrl publicRegistryUrl] [⟨publicRegistryUrl, [], some e⟩]
          rw [ht]
          simp

/-- A disk config carrying auth, a profile selection, a disabled session
transcript, install directories, and private-registry credentials. -/
def rawFileEx : RawConfigFile :=
  { username := some "user@example.com".data
    password := some "pw".data
    organizationUrl := some "https://org.example.com".data
    profileBase := some "profile-a".data
    sendSessionTranscript := some "disabled".data
    installDirs := some (some ["/home/u/proj".data])
    registryAuths :=
      some [⟨"user@example.com".data, "secret123".data,
        "https://private.registry.com".data⟩] }

/-- Claim C4: switching the active profile from `profile-a` to `profile-b`
on the disk config above rewrites the whole file through `saveDiskConfig`,
which only carries auth and the profile selection: the written file has lost
the `registryAuths`, `sendSessionTranscript` and `installDirs` keys that
were present before, contradicting the claimed byte-for-byte preservation
(the repository's own switch-profile test asserts `registryAuths` must
survive the switch). -/
theorem switchProfile_drops_fields :
    switchProfile id true (some rawFileEx) "profile-b".data =
      Except.ok
        { username := some "user@example.com".data
          password := some "pw".data
          organizationUrl := some "https://org.example.com".data
          profileBase := some "profile-b".data
          sendSessionTranscript := none
          installDirs := none
          registryAuths := none }
    ∧ rawFileEx.sendSessionTranscript = some "disabled".data
    ∧ rawFileEx.registryAuths ≠ none
    ∧ rawFileEx.installDirs ≠ none := by
  refine ⟨by rfl, rfl, by simp [rawFileEx], by simp [rawFileEx]⟩

/-- Claim C5 counterexample: a directory named `_base` that contains a
`CLAUDE.md` is returned by `listProfiles`, so a mixin directory can appear
in a listing of installable profiles. -/
theorem listProfiles_lists_mixin_counterexample :
    listProfiles true [⟨"_base".data, true, true, some none⟩] =
      Except.ok ["_base".data]
    ∧ ("_base".data).head? = some '_' := by
  exact ⟨rfl, rfl⟩

/-- Claim C5, amended: `listProfiles` returns exactly the names of the
directory entries that contain the agent-instructions file `CLAUDE.md`, with
no filtering of `_`-prefixed (mixin) names; only the installer's built-in
profile scan (`getAvailableProfiles`) excludes `_`-prefixed directories, and
it selects by `profile.json` rather than by `CLAUDE.md`. -/
theorem listProfiles_characterization (entries src : List DirEntry)
    (l : List Str) (bl : List (Str × Str)) (n : Str)
    (h : listProfiles true entries = Except.ok l)
    (hb : getAvailableBuiltInProfiles src = Except.ok bl) :
    (n ∈ l ↔ ∃ e ∈ entries, e.name = n ∧ e.isDirectory = true ∧ e.hasClaudeMd = true)
    ∧ (∀ p ∈ bl, p.1.head? ≠ some '_') := by
  constructor
  · have hl : l = entries.filterMap fun e =>
        if e.isDirectory && e.hasClaudeMd then some e.name else none := by
      simpa [listProfiles] using h.symm
    subst hl
    simp only [List.mem_filterMap]
    constructor
    · rintro ⟨e, he, hcond⟩
      by_cases hc : e.isDirectory && e.hasClaudeMd
      · rw [if_pos hc] at hcond
        cases hcond
        rcases Bool.and_eq_true_iff.mp hc with ⟨h1, h2⟩
        exact ⟨e, he, rfl, h1, h2⟩
      · rw [if_neg hc] at hcond
        cases hcond
    · rintro ⟨e, he, rfl, h1, h2⟩
      exact ⟨e, he, by simp [h1, h2]⟩
  · clear h
    induction src generalizing bl with
    | nil =>
      have hbl : bl = [] := by
        simpa [getAvailableBuiltInProfiles] using hb.symm
      subst hbl
      intro p hp
      cases hp
    | cons e rest ih =>
      by_cases hskip : (!e.isDirectory || e.name.head? == some '_') = true
      · simp only [getAvailableBuiltInProfiles, if_pos hskip] at hb
        exact ih bl hb
      · simp only [getAvailableBuiltInProfiles, if_neg hskip] at hb
        cases hpj : e.profileJson with
        | none =>
          rw [hpj] at hb
          cases hb
        | some desc =>
          rw [hpj] at hb
          cases hrest : getAvailableBuiltInProfiles rest with
          | error msg =>
            rw [hrest] at hb
            simp only [Except.map] at hb
            cases hb
          | ok bl' =>
            rw [hrest] at hb
            have hbl : bl = (e.name, desc.getD "No description available".data) :: bl' := by
              simp only [Except.map] at hb
              exact (Except.ok.inj hb).symm
            subst hbl
            intro p hp
            rcases List.mem_cons.mp hp with rfl | hp
            · intro hcontra
              apply hskip
              simp only at hcontra
              simp [hcontra]
            · exact ih bl' hrest p hp

/-! ## Lemmas about the managed-block editor -/

theorem newline_not_mem_endMarker : '\n' ∉ endMarker := by decide

theorem newline_not_mem_beginMarker : '\n' ∉ beginMarker := by decide

theorem beginMarker_border_free :
    ∀ m < beginMarker.length, 0 < m →
      beginMarker.drop m ≠ beginMarker.take (beginMarker.length - m) := by
  decide

/-- A newline-free pattern that is not an infix of `a` is not a prefix of
`a ++ '\n' :: w`. -/
theorem not_prefix_across_newline {p a : Str} (w : Str)
    (hnl : '\n' ∉ p) (h : ¬ p <:+: a) : ¬ p <+: a ++ '\n' :: w := by
  rintro ⟨u, hu⟩
  rcases List.append_eq_append_iff.mp hu with ⟨k, hk, _⟩ | ⟨k, hk, hk2⟩
  · exact h (List.IsPrefix.isInfix ⟨k, hk.symm⟩)
  · cases k with
    | nil =>
      rw [List.append_nil] at hk
      exact h (hk ▸ List.infix_refl p)
    | cons k0 k' =>
      have hk0 : k0 = '\n' := by
        have := hk2
        injection this with h1 _
        exact h1.symm
      apply hnl
      rw [hk, hk0]
      exact List.mem_append.mpr (Or.inr (List.mem_cons_self _ _))

/-- Scanning for `\nEND` through a clean region `a` finds the first end
sentinel exactly at the boundary. -/
theorem findEnd_append (a b : Str) (h : ¬ ('\n' :: endMarker) <:+: a) :
    findEnd (a ++ ('\n' :: endMarker) ++ b) = some (consumeOptNewline b) := by
  induction a with
  | nil =>
    show findEnd (('\n' :: endMarker) ++ b) = some (consumeOptNewline b)
    rw [show ('\n' :: endMarker) ++ b = '\n' :: (endMarker ++ b) by simp]
    rw [findEnd]
    rw [if_pos ⟨b, by simp⟩]
    rw [show '\n' :: (endMarker ++ b) = ('\n' :: endMarker) ++ b by simp]
    rw [List.drop_left]
  | cons c a' ih =>
    rw [show ((c :: a') ++ ('\n' :: endMarker) ++ b) =
      c :: (a' ++ ('\n' :: endMarker) ++ b) by simp]
    rw [findEnd]
    rw [if_neg ?_, ih (fun hin => h (List.infix_cons hin))]
    intro hpre
    rw [show c :: (a' ++ ('\n' :: endMarker) ++ b) =
      c :: (a' ++ (('\n' :: endMarker) ++ b)) by simp] at hpre
    rcases List.cons_prefix_cons.mp hpre with ⟨rfl, hpre'⟩
    rcases hpre' with ⟨u, hu⟩
    rcases List.append_eq_append_iff.mp hu with ⟨k, hk, _⟩ | ⟨k, hk, hk2⟩
    · exact h (List.IsPrefix.isInfix (List.cons_prefix_cons.mpr ⟨rfl, ⟨k, hk.symm⟩⟩))
    · cases k with
      | nil =>
        rw [List.append_nil] at hk
        exact h (List.IsPrefix.isInfix (List.cons_prefix_cons.mpr ⟨rfl, hk ▸ List.prefix_refl _⟩))
      | cons k0 k' =>
        have hk0 : k0 = '\n' := by
          have h1 : ('\n' :: endMarker) ++ b = k0 :: (k' ++ u) := by simpa using hk2
          injection h1 with h1 _
          exact h1.symm
        apply newline_not_mem_endMarker
        rw [hk, hk0]
        exact List.mem_append.mpr (Or.inr (List.mem_cons_self _ _))

theorem matchRemoveHere_skip {a : Str} (c : Char) (w : Str)
    (h : ¬ beginMarker <:+: c :: a) :
    matchRemoveHere (c :: (a ++ '\n' :: (beginMarker ++ w))) = none := by
  have hnotail : ¬ beginMarker <:+: a := fun hin => h (List.infix_cons hin)
  rw [matchRemoveHere, if_neg ?_, if_neg ?_]
  · intro hpre
    have hshrunk : beginMarker <+: (c :: a) ++ '\n' :: (beginMarker ++ w) := by
      have : beginMarker <+: c :: (a ++ '\n' :: (beginMarker ++ w)) :=
        (List.prefix_append beginMarker ['\n']).trans hpre
      simpa using this
    exact not_prefix_across_newline _ newline_not_mem_beginMarker h hshrunk
  · intro hpre
    rcases List.cons_prefix_cons.mp hpre with ⟨rfl, hpre'⟩
    have hshrunk : beginMarker <+: a ++ '\n' :: (beginMarker ++ w) :=
      (List.prefix_append beginMarker ['\n']).trans hpre'
    exact not_prefix_across_newline _ newline_not_mem_beginMarker hnotail hshrunk

/-- The removal scanner copies a clean region `a` unchanged. -/
theorem removeBlocksGo_skip (a : Str) (w : Str) (fuel : Nat)
    (h : ¬ beginMarker <:+: a) :
    removeBlocksGo (a.length + fuel) (a ++ '\n' :: (beginMarker ++ w)) =
      a ++ removeBlocksGo fuel ('\n' :: (beginMarker ++ w)) := by
  induction a with
  | nil => simp
  | cons c a' ih =>
    have hmatch := matchRemoveHere_skip (a := a') c w h
    rw [show ((c :: a') ++ '\n' :: (beginMarker ++ w)) =
      c :: (a' ++ '\n' :: (beginMarker ++ w)) by simp]
    rw [show (c :: a').length + fuel = (a'.length + fuel) + 1 by simp [Nat.add_comm, Nat.add_assoc, Nat.add_left_comm]]
    simp only [removeBlocksGo, hmatch]
    rw [ih (fun hin => h (List.infix_cons hin))]
    simp

theorem removeBlocksGo_nil (fuel : Nat) : removeBlocksGo fuel [] = [] := by
  cases fuel with
  | zero => rfl
  | succ f =>
    have hm : matchRemoveHere [] = none := by decide
    simp only [removeBlocksGo, hm]

/-- At the start of the appended managed section, the removal regex matches
exactly the whole section. -/
theorem removeBlocksGo_section (instructions : Str) (fuel : Nat)
    (h : ¬ ('\n' :: endMarker) <:+: instructions) :
    removeBlocksGo (fuel + 1) (managedSection instructions) = [] := by
  have hm : matchRemoveHere (managedSection instructions) = some [] := by
    rw [matchRemoveHere]
    rw [if_pos ?_]
    · rw [show managedSection instructions =
        ('\n' :: (beginMarker ++ ['\n'])) ++
          (instructions ++ ('\n' :: endMarker) ++ ['\n']) by simp [managedSection]]
      rw [show beginMarker.length + 2 = ('\n' :: (beginMarker ++ ['\n'])).length by simp]
      rw [List.drop_left]
      rw [findEnd_append _ _ h]
      rfl
    · refine ⟨instructions ++ '\n' :: endMarker ++ ['\n'], ?_⟩
      simp [managedSection]
  simp only [removeBlocksGo, hm, removeBlocksGo_nil]

/-- Removing the managed block appended to clean content restores the
content exactly. -/
theorem removeBlocks_append_section (content instructions : Str)
    (h1 : ¬ beginMarker <:+: content)
    (h2 : ¬ ('\n' :: endMarker) <:+: instructions) :
    removeBlocks (content ++ managedSection instructions) = content := by
  rw [removeBlocks]
  have hlen : (content ++ managedSection instructions).length =
      content.length + ((beginMarker ++ '\n' :: (instructions ++ '\n' :: (endMarker ++ ['\n']))).length + 1) := by
    simp [managedSection]
  rw [hlen]
  rw [show content ++ managedSection instructions =
    content ++ '\n' :: (beginMarker ++ ('\n' :: (instructions ++ '\n' :: (endMarker ++ ['\n'])))) by
      simp [managedSection]]
  rw [removeBlocksGo_skip _ _ _ h1]
  rw [show ('\n' :: (beginMarker ++ ('\n' :: (instructions ++ '\n' :: (endMarker ++ ['\n']))))) =
    managedSection instructions by simp [managedSection]]
  rw [removeBlocksGo_section _ _ h2]
  simp

theorem beginMarker_infix_append_section (content instructions : Str) :
    beginMarker <:+: content ++ managedSection instructions := by
  refine ⟨content ++ ['\n'], '\n' :: (instructions ++ '\n' :: (endMarker ++ ['\n'])), ?_⟩
  simp [managedSection]

/-- Claim C6, amended: for content with no managed block (and a block body
that contains no newline-plus-END-sentinel), removing the managed block
right after upserting it restores the original content exactly when the
original content is not whitespace-only; when it is whitespace-only the
removal signals deletion of the file (`none`) instead of writing a
whitespace-only or empty file. -/
theorem removeClaudeMd_after_insert_roundtrip (content instructions : Str)
    (h1 : ¬ beginMarker <:+: content)
    (h2 : ¬ ('\n' :: endMarker) <:+: instructions) :
    removeClaudeMdContent (insertClaudeMdContent instructions content) =
      (if content.all isJsWhitespace then none else some content) := by
  have hins : insertClaudeMdContent instructions content =
      content ++ managedSection instructions := by
    simp [insertClaudeMdContent, h1]
  rw [hins]
  have hinf := beginMarker_infix_append_section content instructions
  have hrem := removeBlocks_append_section content instructions h1 h2
  simp [removeClaudeMdContent, hinf, hrem]

/-- Claim C6 counterexample: for the whitespace-only (but non-empty) content
`" "`, which contains no managed block, the remove-after-upsert round trip
does not restore the content — it signals file deletion instead. -/
theorem roundtrip_whitespace_counterexample :
    ¬ beginMarker <:+: [' ']
    ∧ removeClaudeMdContent (insertClaudeMdContent "body".data [' ']) = none
    ∧ (none : Option Str) ≠ some [' '] := by
  refine ⟨by decide, by decide, by simp⟩

/-- The BEGIN sentinel cannot start strictly inside a clean region `a` and
reach into an adjacent occurrence of itself: that would require a nontrivial
border of the sentinel. -/
theorem not_prefix_before_marker {a : Str} (w : Str) (hne : a ≠ [])
    (h : ¬ beginMarker <:+: a) : ¬ beginMarker <+: a ++ (beginMarker ++ '\n' :: w) := by
  rintro ⟨u, hu⟩
  rcases List.append_eq_append_iff.mp hu with ⟨k, hk, _⟩ | ⟨k, hk, hk2⟩
  · exact h (List.IsPrefix.isInfix ⟨k, hk.symm⟩)
  · cases hkk : k with
    | nil =>
      rw [hkk, List.append_nil] at hk
      exact h (hk ▸ List.infix_refl beginMarker)
    | cons k0 k' =>
      have hlena : beginMarker.length = a.length + k.length := by
        rw [hk]; simp
    -- `a` is a nonempty strict prefix of the sentinel
      have hapos : 0 < a.length := List.length_pos.mpr hne
      have hkpos : 0 < k.length := by rw [hkk]; simp
      have halt : a.length < beginMarker.length := by omega
      have hdrop : beginMarker.drop a.length = k := by
        rw [hk, List.drop_left]
      have hkpre : k <+: beginMarker := by
        rcases List.append_eq_append_iff.mp hk2.symm with ⟨j, hj, _⟩ | ⟨j, hj, _⟩
        · exact ⟨j, hj.symm⟩
        · exfalso
          have : k.length = beginMarker.length + j.length := by rw [hj]; simp
          omega
      have htake : k = beginMarker.take k.length := List.prefix_iff_eq_take.mp hkpre
      have hklen : k.length = beginMarker.length - a.length := by omega
      exact beginMarker_border_free a.length halt hapos (by rw [hdrop, htake, hklen])

theorem matchReplaceHere_skip {a : Str} (c : Char) (w : Str)
    (h : ¬ beginMarker <:+: c :: a) :
    matchReplaceHere (c :: (a ++ (beginMarker ++ '\n' :: w))) = none := by
  rw [matchReplaceHere, if_neg]
  intro hpre
  have hshrunk : beginMarker <+: (c :: a) ++ (beginMarker ++ '\n' :: w) := by
    have : beginMarker <+: c :: (a ++ (beginMarker ++ '\n' :: w)) :=
      (List.prefix_append beginMarker ['\n']).trans hpre
    simpa using this
  exact not_prefix_before_marker w (by simp) h hshrunk

/-- The replacement scanner copies a clean region `a` unchanged. -/
theorem replaceBlocksGo_skip (instructions a w : Str) (fuel : Nat)
    (h : ¬ beginMarker <:+: a) :
    replaceBlocksGo instructions (a.length + fuel) (a ++ (beginMarker ++ '\n' :: w)) =
      a ++ replaceBlocksGo instructions fuel (beginMarker ++ '\n' :: w) := by
  induction a with
  | nil => simp
  | cons c a' ih =>
    have hmatch := matchReplaceHere_skip (a := a') c w (h := h)
    rw [show ((c :: a') ++ (beginMarker ++ '\n' :: w)) =
      c :: (a' ++ (beginMarker ++ '\n' :: w)) by simp]
    rw [show (c :: a').length + fuel = (a'.length + fuel) + 1 by
      simp [Nat.add_comm, Nat.add_assoc, Nat.add_left_comm]]
    simp only [replaceBlocksGo, hmatch]
    rw [ih (fun hin => h (List.infix_cons hin))]
    simp

/-- At the block itself, the replacement regex matches up to the first END
sentinel and the trailing newline. -/
theorem matchReplaceHere_block (oldInner post : Str)
    (h : ¬ ('\n' :: endMarker) <:+: oldInner) :
    matchReplaceHere
        (beginMarker ++ '\n' :: (oldInner ++ '\n' :: (endMarker ++ '\n' :: post))) =
      some post := by
  rw [matchReplaceHere]
  rw [if_pos ⟨oldInner ++ '\n' :: (endMarker ++ '\n' :: post), by simp⟩]
  rw [show (beginMarker ++ '\n' :: (oldInner ++ '\n' :: (endMarker ++ '\n' :: post))) =
    (beginMarker ++ ['\n']) ++ (oldInner ++ '\n' :: (endMarker ++ '\n' :: post)) by simp]
  rw [show beginMarker.length + 1 = (beginMarker ++ ['\n']).length by simp]
  rw [List.drop_left]
  rw [show (oldInner ++ '\n' :: (endMarker ++ '\n' :: post)) =
    oldInner ++ ('\n' :: endMarker) ++ ('\n' :: post) by simp]
  rw [findEnd_append _ _ h]
  rfl

/-- The replacement scanner leaves a block-free tail unchanged. -/
theorem replaceBlocksGo_id (instructions : Str) (fuel : Nat) (s : Str)
    (h : ¬ beginMarker <:+: s) :
    replaceBlocksGo instructions fuel s = s := by
  induction fuel generalizing s with
  | zero => rfl
  | succ f ih =>
    have hm : matchReplaceHere s = none := by
      rw [matchReplaceHere, if_neg]
      intro hpre
      exact h ((List.prefix_append beginMarker ['\n']).trans hpre).isInfix
    cases s with
    | nil => simp only [replaceBlocksGo, hm]
    | cons c rest =>
      simp only [replaceBlocksGo, hm]
      rw [ih rest (fun hin => h (List.infix_cons hin))]

/-- Replacing in a well-formed single-block file rewrites only the block's
inner body. -/
theorem replaceBlocks_single (instructions pre oldInner post : Str)
    (h2 : ¬ beginMarker <:+: pre)
    (h3 : ¬ ('\n' :: endMarker) <:+: oldInner)
    (h4 : ¬ beginMarker <:+: post) :
    replaceBlocks instructions
        (pre ++ (beginMarker ++ '\n' :: (oldInner ++ '\n' :: (endMarker ++ '\n' :: post)))) =
      pre ++ (beginMarker ++ '\n' :: (instructions ++ '\n' :: (endMarker ++ '\n' :: post))) := by
  rw [replaceBlocks]
  rw [show (pre ++ (beginMarker ++ '\n' :: (oldInner ++ '\n' :: (endMarker ++ '\n' :: post)))).length =
    pre.length + (beginMarker ++ '\n' :: (oldInner ++ '\n' :: (endMarker ++ '\n' :: post))).length by simp]
  rw [replaceBlocksGo_skip _ _ _ _ h2]
  rw [show (beginMarker ++ '\n' :: (oldInner ++ '\n' :: (endMarker ++ '\n' :: post))).length =
    (beginMarker.length + (oldInner ++ '\n' :: (endMarker ++ '\n' :: post)).length) + 1 by
      simp; omega]
  simp only [replaceBlocksGo, matchReplaceHere_block oldInner post h3]
  rw [replaceBlocksGo_id _ _ _ h4]
  simp [replacementBlock]

/-- Claim C7: upserting the managed block never modifies content outside
the block.  With no BEGIN sentinel present, the block is appended after the
existing content, preserving all prior bytes; with a (single, well-formed)
BEGIN sentinel present, only the sentinel-delimited region up to the first
following END sentinel has its inner body replaced, and all text before and
after the block is preserved unchanged. -/
theorem insertClaudeMd_preserves_outside_block
    (content instructions pre oldInner post : Str)
    (h1 : ¬ beginMarker <:+: content)
    (h2 : ¬ beginMarker <:+: pre)
    (h3 : ¬ ('\n' :: endMarker) <:+: oldInner)
    (h4 : ¬ beginMarker <:+: post) :
    insertClaudeMdContent instructions content = content ++ managedSection instructions
    ∧ insertClaudeMdContent instructions
        (pre ++ (beginMarker ++ '\n' :: (oldInner ++ '\n' :: (endMarker ++ '\n' :: post)))) =
      pre ++ (beginMarker ++ '\n' :: (instructions ++ '\n' :: (endMarker ++ '\n' :: post))) := by
  constructor
  · simp [insertClaudeMdContent, h1]
  · have hinf : beginMarker <:+:
        pre ++ (beginMarker ++ '\n' :: (oldInner ++ '\n' :: (endMarker ++ '\n' :: post))) :=
      ⟨pre, '\n' :: (oldInner ++ '\n' :: (endMarker ++ '\n' :: post)), by simp⟩
    rw [insertClaudeMdContent, if_pos hinf]
    exact replaceBlocks_single instructions pre oldInner post h2 h3 h4

/-! ## Witnesses -/

/-- Oracle in which every registry query and token request fails. -/
def oracleFail : RegistryOracle :=
  { getProfileMetadata := fun _ _ => none
    getRegistryAuthToken := fun _ => none }

/-- Concrete environment: explicit install dir, all registry queries fail. -/
def envW1 : DlEnv := { oracle := oracleFail, installDirArg := some "/w".data }

/-- Witness for the search-results dispatch at a concrete zero-hit run. -/
theorem registryDownload_search_dispatch_witness :
    envW1.installDirArg = some "/w".data
    ∧ envW1.targetDirExists = false
    ∧ envW1.registryUrlArg = none
    ∧ (searchAllRegistries envW1.oracle envW1.config).1 = []
    ∧ (registryDownloadMain "prof".data none envW1).1 =
        [(LogLevel.error, notFoundMsg "prof".data)] :=
  ⟨rfl, rfl, rfl, rfl,
    ((registryDownload_search_dispatch "prof".data none envW1 "/w".data rfl rfl rfl).1 rfl).1⟩

/-- A plain installable profile directory. -/
def entryAlpha : DirEntry := ⟨"alpha".data, true, true, none⟩

/-- A mixin directory carrying a readable `profile.json`. -/
def entryMixin : DirEntry := ⟨"_base".data, true, false, some none⟩

/-- Witness for the listing characterization at concrete directory entries. -/
theorem listProfiles_characterization_witness :
    listProfiles true [entryAlpha] = Except.ok ["alpha".data]
    ∧ getAvailableBuiltInProfiles [entryMixin] = Except.ok []
    ∧ (("alpha".data ∈ ["alpha".data] ↔
          ∃ e ∈ [entryAlpha], e.name = "alpha".data ∧ e.isDirectory = true
            ∧ e.hasClaudeMd = true)
       ∧ ∀ p ∈ ([] : List (Str × Str)), p.1.head? ≠ some '_') :=
  ⟨rfl, rfl,
    listProfiles_characterization [entryAlpha] [entryMixin] ["alpha".data] [] "alpha".data
      rfl rfl⟩

/-- Witness for the upsert/remove round trip at concrete content and body. -/
theorem removeClaudeMd_after_insert_roundtrip_witness :
    ¬ beginMarker <:+: "hello world".data
    ∧ ¬ ('\n' :: endMarker) <:+: "the body".data
    ∧ removeClaudeMdContent (insertClaudeMdContent "the body".data "hello world".data) =
        some "hello world".data :=
  ⟨by decide, by decide,
    (removeClaudeMd_after_insert_roundtrip "hello world".data "the body".data
      (by decide) (by decide)).trans (by decide)⟩

/-- Witness for the frame property of the upsert at concrete inputs. -/
theorem insertClaudeMd_preserves_outside_block_witness :
    (¬ beginMarker <:+: "content".data)
    ∧ (¬ beginMarker <:+: "before\n".data)
    ∧ (¬ ('\n' :: endMarker) <:+: "old".data)
    ∧ (¬ beginMarker <:+: "after".data)
    ∧ insertClaudeMdContent "new".data "content".data =
        "content".data ++ managedSection "new".data
    ∧ insertClaudeMdContent "new".data
        ("before\n".data ++ (beginMarker ++ '\n' ::
          ("old".data ++ '\n' :: (endMarker ++ '\n' :: "after".data)))) =
      "before\n".data ++ (beginMarker ++ '\n' ::
        ("new".data ++ '\n' :: (endMarker ++ '\n' :: "after".data))) := by
  have h := insertClaudeMd_preserves_outside_block "content".data "new".data
    "before\n".data "old".data "after".data (by decide) (by decide) (by decide) (by decide)
  exact ⟨by decide, by decide, by decide, by decide, h.1, h.2⟩

/-- Concrete environment with no explicit install dir and no installation. -/
def envW8 : DlEnv := { oracle := oracleFail }

/-- Witness for the installation-count dispatch at a concrete zero-install run. -/
theorem installDirs_count_dispatch_witness :
    envW8.installDirArg = none
    ∧ envW8.installations = []
    ∧ registryDownloadMain "prof".data none envW8 =
        ([(LogLevel.error, noInstallMsg), (LogLevel.info, runInstallMsg)], []) :=
  ⟨rfl, rfl, ((installDirs_count_dispatch "prof".data none envW8).1 rfl rfl).1⟩

/-- Concrete environment: download succeeds and extraction fails. -/
def envW9 : DlEnv :=
  { oracle := oracleEx
    installDirArg := some "/w".data
    extractResult := Except.error "bad tar".data }

/-- Witness for the extraction-failure cleanup at a concrete run. -/
theorem registryDownload_extraction_cleanup_witness :
    envW9.installDirArg = some "/w".data
    ∧ envW9.targetDirExists = false
    ∧ envW9.registryUrlArg = none
    ∧ (searchAllRegistries envW9.oracle envW9.config).1 =
        [⟨publicRegistryUrl, mdEx, none⟩]
    ∧ (registryDownloadMain "prof".data none envW9).2 =
        [FsEvent.queryMetadata publicRegistryUrl none,
         FsEvent.downloadTarball publicRegistryUrl none none,
         FsEvent.mkdirTarget, FsEvent.extractTarball, FsEvent.rmTarget] :=
  ⟨rfl, rfl, rfl, rfl, by
    have h := (registryDownload_extraction_cleanup "prof".data none envW9 "/w".data
      ⟨publicRegistryUrl, mdEx, none⟩ rfl rfl rfl rfl).2.1 "bad tar".data rfl rfl
    exact h.1.trans (by rfl)⟩

/-- Concrete environment in which the target profile directory exists. -/
def envW10 : DlEnv :=
  { oracle := oracleFail, installDirArg := some "/w".data, targetDirExists := true }

/-- Witness for the existing-profile early return at a concrete run. -/
theorem registryDownload_existing_profile_early_return_witness :
    envW10.targetDirExists = true
    ∧ registryDownloadMain "prof".data none envW10 =
        ([(LogLevel.error, alreadyExistsMsg "prof".data
            ("/w".data ++ "/.claude/profiles/".data ++ "prof".data))], []) :=
  ⟨rfl, (registryDownload_existing_profile_early_return "prof".data none envW10 "/w".data
    rfl (Or.inl rfl)).1⟩

end Nori
